import Mathlib

/-!
Shallow embedding of the appointment-scheduling core of the
Hospital-Management-System Flask application.

Tables (database.py `init_db`) become Lean structures holding lists of rows;
the route handlers in `blueprints/patient.py`, `blueprints/doctor.py` and
`blueprints/admin.py` become functions on that state.

Dates (`YYYY-MM-DD`) and times (`HH:MM`) are stored in the source as strings
and compared with SQL `<` / `BETWEEN` (and Python string `<` for the
past-date checks).  For well-formed values these fixed-width encodings order
lexicographically exactly as their numeric readings, so the embedding models
both as `Nat` with the usual order; SQLite's `time()` normalisation is the
identity on well-formed `HH:MM` values.
-/

namespace HMS

/-- Appointment status, the CHECK constraint of the `appointments` table:
`status IN ('Booked', 'Completed', 'Cancelled', 'Rescheduled')`. -/
inductive Status where
  | Booked
  | Completed
  | Cancelled
  | Rescheduled
deriving DecidableEq, Repr

/-- User/doctor/patient status, CHECK constraint `IN ('active', 'blacklisted')`. -/
inductive PartyStatus where
  | active
  | blacklisted
deriving DecidableEq, Repr

/-- A row of the `doctors` table (columns the scheduling engine reads). -/
structure Doctor where
  doctor_id : Nat
  user_id : Nat
  status : PartyStatus
deriving DecidableEq, Repr

/-- A row of the `patients` table (columns the scheduling engine reads). -/
structure Patient where
  patient_id : Nat
  user_id : Nat
  status : PartyStatus
deriving DecidableEq, Repr

/-- A row of the `doctor_availability` table. -/
structure Availability where
  availability_id : Nat
  doctor_id : Nat
  date : Nat
  start_time : Nat
  end_time : Nat
  is_available : Bool
deriving DecidableEq, Repr

/-- A row of the `appointments` table (timestamps omitted: no claim reads them). -/
structure Appointment where
  appointment_id : Nat
  patient_id : Nat
  doctor_id : Nat
  appointment_date : Nat
  appointment_time : Nat
  status : Status
  reason : String
deriving DecidableEq, Repr

/-- A row of the `treatments` table. -/
structure Treatment where
  treatment_id : Nat
  appointment_id : Nat
  diagnosis : String
  prescription : String
  notes : String
  follow_up_date : String
deriving DecidableEq, Repr

/-- The database state: the five tables the scheduling core touches, plus the
AUTOINCREMENT counters for the primary keys the core allocates. -/
structure DB where
  doctors : List Doctor
  patients : List Patient
  doctor_availability : List Availability
  appointments : List Appointment
  treatments : List Treatment
  next_appointment_id : Nat
  next_availability_id : Nat
  next_treatment_id : Nat
deriving DecidableEq, Repr

/-- The double-booking filter of `patient.py` `book_appointment` (lines
211–219): same doctor, date and time, `status NOT IN ('Cancelled',
'Rescheduled')`. -/
def blocksSlot (doc d t : Nat) (a : Appointment) : Bool :=
  a.doctor_id == doc && a.appointment_date == d && a.appointment_time == t &&
    !(a.status == Status.Cancelled) && !(a.status == Status.Rescheduled)

/-- The availability filter of `patient.py` `book_appointment` (lines
225–233): same doctor and date, `is_available = 1`, and
`time(?) BETWEEN time(start_time) AND time(end_time)` (SQL BETWEEN is
inclusive on both ends). -/
def coversSlot (doc d t : Nat) (w : Availability) : Bool :=
  w.doctor_id == doc && w.date == d && w.is_available &&
    decide (w.start_time ≤ t) && decide (t ≤ w.end_time)

/-- A status outside the terminal set {Cancelled, Rescheduled}: the statuses
that occupy a slot for conflict purposes. -/
def nonTerminal (s : Status) : Bool :=
  !(s == Status.Cancelled) && !(s == Status.Rescheduled)

/-- Errors the booking route reports via `flash(..., 'danger')`. -/
inductive BookError where
  | pastDate
  | slotTaken
  | unavailable
deriving DecidableEq, Repr

/-- The INSERT of `patient.py` `book_appointment` (lines 240–244): a new row
with status `'Booked'` and the next AUTOINCREMENT id. -/
def insertAppointment (db : DB) (pid doc d t : Nat) (reason : String) : DB :=
  { db with
    appointments := db.appointments ++
      [{ appointment_id := db.next_appointment_id, patient_id := pid,
         doctor_id := doc, appointment_date := d, appointment_time := t,
         status := Status.Booked, reason := reason }],
    next_appointment_id := db.next_appointment_id + 1 }

/-- `patient.py` `book_appointment` POST path (lines 197–248): past-date
check, double-booking check, availability check, then insert. -/
def book_appointment (db : DB) (pid doc d t : Nat) (reason : String)
    (today : Nat) : Except BookError DB :=
  if d < today then
    Except.error BookError.pastDate
  else
    match db.appointments.find? (blocksSlot doc d t) with
    | some _ => Except.error BookError.slotTaken
    | none =>
      match db.doctor_availability.find? (coversSlot doc d t) with
      | none => Except.error BookError.unavailable
      | some _ => Except.ok (insertAppointment db pid doc d t reason)

/-- `UPDATE appointments SET status = ? WHERE appointment_id = ?`
(shared by `patient.py` cancel, `doctor.py` update, `admin.py` update). -/
def setStatus (db : DB) (aid : Nat) (st : Status) : DB :=
  { db with
    appointments := db.appointments.map fun a =>
      if a.appointment_id == aid then { a with status := st } else a }

/-- Errors the cancellation route reports. -/
inductive CancelError where
  | notFound
  | pastDate
deriving DecidableEq, Repr

/-- `patient.py` `cancel_appointment` (lines 307–347): look the appointment
up by id and owning patient, refuse past dates, then set status
`'Cancelled'`.  The current status is never inspected. -/
def cancel_appointment (db : DB) (pid aid today : Nat) : Except CancelError DB :=
  match db.appointments.find?
      (fun a => a.appointment_id == aid && a.patient_id == pid) with
  | none => Except.error CancelError.notFound
  | some a =>
    if a.appointment_date < today then Except.error CancelError.pastDate
    else Except.ok (setStatus db aid Status.Cancelled)

/-- `doctor.py` `update_appointment` lines 152–170: look up the treatment by
`appointment_id`; UPDATE its clinical fields if present, INSERT a new row
otherwise. -/
def upsertTreatment (db : DB) (aid : Nat) (di pr no fu : String) : DB :=
  match db.treatments.find? (fun tr => tr.appointment_id == aid) with
  | some _ =>
    { db with
      treatments := db.treatments.map fun tr =>
        if tr.appointment_id == aid then
          { tr with diagnosis := di, prescription := pr, notes := no,
                    follow_up_date := fu }
        else tr }
  | none =>
    { db with
      treatments := db.treatments ++
        [{ treatment_id := db.next_treatment_id, appointment_id := aid,
           diagnosis := di, prescription := pr, notes := no,
           follow_up_date := fu }],
      next_treatment_id := db.next_treatment_id + 1 }

/-- The two writes of `doctor.py` `update_appointment` (lines 145–170) fused:
status update followed by treatment upsert (the state visible after a
successful commit). -/
def doctor_update_core (db : DB) (aid : Nat) (st : Status)
    (di pr no fu : String) : DB :=
  upsertTreatment (setStatus db aid st) aid di pr no fu

/-- A SQLite connection in the middle of a request: `committed` is what a
rollback restores and other connections see, `pending` accumulates the
uncommitted statements of the open transaction. -/
structure Conn where
  committed : DB
  pending : DB
deriving DecidableEq, Repr

/-- `db.execute(...)` for a write statement: applies to the open
transaction only. -/
def execStmt (c : Conn) (f : DB → DB) : Conn :=
  { c with pending := f c.pending }

/-- `db.commit()`: the pending statements become durable. -/
def commitTx (c : Conn) : Conn :=
  { c with committed := c.pending }

/-- `db.rollback()`: the pending statements are discarded. -/
def rollbackTx (c : Conn) : Conn :=
  { c with pending := c.committed }

/-- `doctor.py` `update_appointment` POST path (lines 131–178) with an
explicit failure oracle: `failAt = some k` means the k-th statement of the
`try` block raises, landing in the `except` branch which calls
`db.rollback()`.  `caller_doctor` is the authenticated doctor (the
`doctor_required` decorator); the handler body never reads it.  Returns the
connection after the request and whether the commit happened. -/
def doctor_update_appointment (caller_doctor : Nat) (c : Conn) (aid : Nat)
    (st : Status) (di pr no fu : String) (failAt : Option Nat) : Conn × Bool :=
  if failAt = some 0 then (rollbackTx c, false)
  else
    let c1 := execStmt c (fun db => setStatus db aid st)
    if failAt = some 1 then (rollbackTx c1, false)
    else
      let c2 := execStmt c1 (fun db => upsertTreatment db aid di pr no fu)
      if failAt = some 2 then (rollbackTx c2, false)
      else (commitTx c2, true)

/-- `admin.py` `update_appointment` (lines 367–386): unconditional status
override by appointment id, no guard on the current status and no conflict
check. -/
def admin_update_appointment (db : DB) (aid : Nat) (st : Status) : DB :=
  setStatus db aid st

/-- One iteration of the loop in `doctor.py` `availability` (lines 219–243):
look up a window by (doctor_id, date, start_time); if present UPDATE its
`end_time` and `is_available` (by `availability_id`), else INSERT a new
row. -/
def declare_window (db : DB) (doc d s e : Nat) (av : Bool) : DB :=
  match db.doctor_availability.find?
      (fun w => w.doctor_id == doc && w.date == d && w.start_time == s) with
  | some w =>
    { db with
      doctor_availability := db.doctor_availability.map fun v =>
        if v.availability_id == w.availability_id then
          { v with end_time := e, is_available := av }
        else v }
  | none =>
    { db with
      doctor_availability := db.doctor_availability ++
        [{ availability_id := db.next_availability_id, doctor_id := doc,
           date := d, start_time := s, end_time := e, is_available := av }],
      next_availability_id := db.next_availability_id + 1 }

/-- The state-mutating operations of the system, as offered by the routes. -/
inductive Op where
  | book (pid doc d t : Nat) (reason : String) (today : Nat)
  | cancel (pid aid today : Nat)
  | doctorUpdate (aid : Nat) (st : Status) (di pr no fu : String)
  | adminUpdate (aid : Nat) (st : Status)
  | declare (doc d s e : Nat) (av : Bool)

/-- The database state after one request: a failed booking or cancellation
leaves the state unchanged (the route redirects after a flash message). -/
def applyOp (db : DB) (op : Op) : DB :=
  match op with
  | Op.book pid doc d t r today =>
    match book_appointment db pid doc d t r today with
    | Except.ok db' => db'
    | Except.error _ => db
  | Op.cancel pid aid today =>
    match cancel_appointment db pid aid today with
    | Except.ok db' => db'
    | Except.error _ => db
  | Op.doctorUpdate aid st di pr no fu => doctor_update_core db aid st di pr no fu
  | Op.adminUpdate aid st => admin_update_appointment db aid st
  | Op.declare doc d s e av => declare_window db doc d s e av

/-- Sequential execution of requests. -/
def applyOps (db : DB) (ops : List Op) : DB :=
  ops.foldl applyOp db

/-- Reachability under the system's operations from an initial state. -/
def Reachable (init s : DB) : Prop :=
  ∃ ops : List Op, applyOps init ops = s

/-- Two appointments on the same (doctor, date, time) slot. -/
def sameSlot (a b : Appointment) : Prop :=
  a.doctor_id = b.doctor_id ∧ a.appointment_date = b.appointment_date ∧
    a.appointment_time = b.appointment_time

instance (a b : Appointment) : Decidable (sameSlot a b) :=
  inferInstanceAs (Decidable (_ ∧ _ ∧ _))

/-- The spec's appointment invariant: no two non-terminal appointments share
a (doctor, date, time) slot. -/
def NoDoubleBook (db : DB) : Prop :=
  db.appointments.Pairwise fun a b =>
    nonTerminal a.status = true → nonTerminal b.status = true → ¬ sameSlot a b

instance (db : DB) : Decidable (NoDoubleBook db) := by
  unfold NoDoubleBook
  infer_instance

/-! ### Basic lemmas about the embedded operations -/

theorem blocksSlot_iff (doc d t : Nat) (a : Appointment) :
    blocksSlot doc d t a = true ↔
      a.doctor_id = doc ∧ a.appointment_date = d ∧ a.appointment_time = t ∧
        nonTerminal a.status = true := by
  simp [blocksSlot, nonTerminal, and_assoc]

theorem coversSlot_iff (doc d t : Nat) (w : Availability) :
    coversSlot doc d t w = true ↔
      w.doctor_id = doc ∧ w.date = d ∧ w.is_available = true ∧
        w.start_time ≤ t ∧ t ≤ w.end_time := by
  simp [coversSlot, and_assoc]

theorem setStatus_availability (db : DB) (aid : Nat) (st : Status) :
    (setStatus db aid st).doctor_availability = db.doctor_availability := rfl

theorem setStatus_treatments (db : DB) (aid : Nat) (st : Status) :
    (setStatus db aid st).treatments = db.treatments := rfl

theorem upsertTreatment_appointments (db : DB) (aid : Nat) (di pr no fu : String) :
    (upsertTreatment db aid di pr no fu).appointments = db.appointments := by
  unfold upsertTreatment
  split <;> rfl

theorem declare_window_appointments (db : DB) (doc d s e : Nat) (av : Bool) :
    (declare_window db doc d s e av).appointments = db.appointments := by
  unfold declare_window
  split <;> rfl

theorem noDoubleBook_congr {db db' : DB}
    (h : db'.appointments = db.appointments) :
    NoDoubleBook db → NoDoubleBook db' := by
  unfold NoDoubleBook
  rw [h]
  exact id

theorem sameSlot_setStatusFun (aid : Nat) (st : Status) (a b : Appointment) :
    sameSlot (if a.appointment_id == aid then { a with status := st } else a)
        (if b.appointment_id == aid then { b with status := st } else b) ↔
      sameSlot a b := by
  unfold sameSlot
  split <;> split <;> simp

theorem noDoubleBook_setStatus_terminal {db : DB} {aid : Nat} {st : Status}
    (hst : nonTerminal st = false) (h : NoDoubleBook db) :
    NoDoubleBook (setStatus db aid st) := by
  unfold NoDoubleBook setStatus
  simp only [List.pairwise_map]
  refine List.Pairwise.imp ?_ h
  intro a b hab ha hb hs
  rw [sameSlot_setStatusFun] at hs
  by_cases hA : (a.appointment_id == aid) = true
  · simp only [hA, if_pos] at ha
    simp [hst] at ha
  · by_cases hB : (b.appointment_id == aid) = true
    · simp only [hB, if_pos] at hb
      simp [hst] at hb
    · simp only [hA, hB, if_neg, Bool.false_eq_true, not_false_iff] at ha hb
      exact hab ha hb hs

theorem noDoubleBook_insert {db : DB} {pid doc d t : Nat} {reason : String}
    (hfind : db.appointments.find? (blocksSlot doc d t) = none)
    (h : NoDoubleBook db) :
    NoDoubleBook (insertAppointment db pid doc d t reason) := by
  unfold NoDoubleBook insertAppointment
  rw [List.pairwise_append]
  refine ⟨h, by simp, ?_⟩
  intro a ha b hb hA hB hs
  simp only [List.mem_singleton] at hb
  rw [List.find?_eq_none] at hfind
  apply hfind a ha
  rw [blocksSlot_iff]
  obtain ⟨h1, h2, h3⟩ := hs
  subst hb
  exact ⟨h1, h2, h3, hA⟩

/-- Status overrides to a terminal value do not occupy new slots. -/
def safeOp : Op → Bool
  | Op.doctorUpdate _ st _ _ _ _ =>
      st == Status.Cancelled || st == Status.Rescheduled
  | Op.adminUpdate _ st => st == Status.Cancelled || st == Status.Rescheduled
  | _ => true

theorem terminal_of_safe {st : Status}
    (h : (st == Status.Cancelled || st == Status.Rescheduled) = true) :
    nonTerminal st = false := by
  cases st <;> simp [nonTerminal] <;> simp at h

theorem noDoubleBook_applyOp {db : DB} {op : Op} (hop : safeOp op = true)
    (h : NoDoubleBook db) : NoDoubleBook (applyOp db op) := by
  cases op with
  | book pid doc d t r today =>
    simp only [applyOp]
    cases hb : book_appointment db pid doc d t r today with
    | error e => exact h
    | ok db' =>
      unfold book_appointment at hb
      by_cases hd : d < today
      · rw [if_pos hd] at hb
        exact absurd hb (by simp)
      · rw [if_neg hd] at hb
        cases hf : db.appointments.find? (blocksSlot doc d t) with
        | some a =>
          rw [hf] at hb
          exact absurd hb (by simp)
        | none =>
          rw [hf] at hb
          cases hw : db.doctor_availability.find? (coversSlot doc d t) with
          | none =>
            rw [hw] at hb
            exact absurd hb (by simp)
          | some w =>
            rw [hw] at hb
            injection hb with hb
            rw [← hb]
            exact noDoubleBook_insert hf h
  | cancel pid aid today =>
    simp only [applyOp]
    cases hc : cancel_appointment db pid aid today with
    | error e => exact h
    | ok db' =>
      unfold cancel_appointment at hc
      cases hf : db.appointments.find?
          (fun a => a.appointment_id == aid && a.patient_id == pid) with
      | none =>
        rw [hf] at hc
        exact absurd hc (by simp)
      | some a =>
        rw [hf] at hc
        dsimp only at hc
        by_cases hd : a.appointment_date < today
        · rw [if_pos hd] at hc
          exact absurd hc (by simp)
        · rw [if_neg hd] at hc
          injection hc with hc
          rw [← hc]
          exact noDoubleBook_setStatus_terminal (by decide) h
  | doctorUpdate aid st di pr no fu =>
    simp only [applyOp, doctor_update_core]
    have hterm : nonTerminal st = false := terminal_of_safe (by simpa [safeOp] using hop)
    exact noDoubleBook_congr (upsertTreatment_appointments _ _ _ _ _ _)
      (noDoubleBook_setStatus_terminal hterm h)
  | adminUpdate aid st =>
    simp only [applyOp, admin_update_appointment]
    have hterm : nonTerminal st = false := terminal_of_safe (by simpa [safeOp] using hop)
    exact noDoubleBook_setStatus_terminal hterm h
  | declare doc d s e av =>
    simp only [applyOp]
    exact noDoubleBook_congr (declare_window_appointments _ _ _ _ _ _) h

theorem noDoubleBook_applyOps :
    ∀ (ops : List Op) (db : DB), (∀ op ∈ ops, safeOp op = true) →
      NoDoubleBook db → NoDoubleBook (applyOps db ops) := by
  intro ops
  induction ops with
  | nil =>
    intro db _ h
    exact h
  | cons op rest ih =>
    intro db hsafe h
    simp only [applyOps, List.foldl_cons]
    exact ih (applyOp db op) (fun o ho => hsafe o (List.mem_cons_of_mem _ ho))
      (noDoubleBook_applyOp (hsafe op (List.mem_cons_self _ _)) h)

/-! ### Concrete states used as witnesses and counterexamples -/

/-- A minimal seeded state: one active doctor, one active patient, one open
morning window, no appointments yet. -/
def db0 : DB :=
  { doctors := [{ doctor_id := 1, user_id := 2, status := PartyStatus.active }],
    patients := [{ patient_id := 1, user_id := 3, status := PartyStatus.active }],
    doctor_availability :=
      [{ availability_id := 1, doctor_id := 1, date := 20250101,
         start_time := 900, end_time := 1200, is_available := true }],
    appointments := [], treatments := [],
    next_appointment_id := 1, next_availability_id := 2, next_treatment_id := 1 }

/-- Book, cancel, rebook the same slot, then an admin override that revives
the cancelled appointment to `Booked`. -/
def c1ops : List Op :=
  [ Op.book 1 1 20250101 930 "" 20250101,
    Op.cancel 1 1 20250101,
    Op.book 1 1 20250101 930 "" 20250101,
    Op.adminUpdate 1 Status.Booked ]

/-- The first three operations of `c1ops`: booking and cancellation only. -/
def c1safeops : List Op :=
  [ Op.book 1 1 20250101 930 "" 20250101,
    Op.cancel 1 1 20250101,
    Op.book 1 1 20250101 930 "" 20250101 ]

/-- C1 fails as stated: from a seeded state, book–cancel–rebook followed by
an admin status override back to `Booked` reaches a state with two `Booked`
appointments on the same (doctor, date, time) slot. -/
theorem C1_counterexample : ¬ ∀ s : DB, Reachable db0 s → NoDoubleBook s := by
  intro h
  exact absurd (h (applyOps db0 c1ops) ⟨c1ops, rfl⟩) (by decide)

/-- C1 amended: in every state reachable by patient booking, patient
cancellation, availability declarations, and doctor/admin status updates
that only write the terminal statuses Cancelled or Rescheduled, no two
appointments with status outside {Cancelled, Rescheduled} share the same
(doctor, date, time) triple; an override to `Booked` or `Completed` can
violate the invariant. -/
theorem C1_amended (init : DB) (ops : List Op)
    (hsafe : ∀ op ∈ ops, safeOp op = true) (hinv : NoDoubleBook init) :
    NoDoubleBook (applyOps init ops) :=
  noDoubleBook_applyOps ops init hsafe hinv

/-- C1 witness: the amended invariant evaluated on a concrete safe run. -/
theorem C1_witness :
    (∀ op ∈ c1safeops, safeOp op = true) ∧ NoDoubleBook db0 ∧
      NoDoubleBook (applyOps db0 c1safeops) :=
  ⟨by decide, by decide, C1_amended db0 c1safeops (by decide) (by decide)⟩


/-! ### Inversion lemmas for the booking path -/

theorem nonTerminal_iff (s : Status) :
    nonTerminal s = true ↔ (s = Status.Booked ∨ s = Status.Completed) := by
  cases s <;> simp [nonTerminal]

theorem book_eq_slotTaken_iff (db : DB) (pid doc d t : Nat) (r : String)
    (today : Nat) (hpast : ¬ d < today) :
    book_appointment db pid doc d t r today = Except.error BookError.slotTaken ↔
      ∃ a ∈ db.appointments, blocksSlot doc d t a = true := by
  rw [← List.find?_isSome]
  unfold book_appointment
  rw [if_neg hpast]
  cases hf : db.appointments.find? (blocksSlot doc d t) with
  | some a => simp
  | none =>
    dsimp only
    cases hw : db.doctor_availability.find? (coversSlot doc d t) with
    | none => simp
    | some w => simp

theorem book_isOk_iff (db : DB) (pid doc d t : Nat) (r : String) (today : Nat)
    (hpast : ¬ d < today)
    (hf : db.appointments.find? (blocksSlot doc d t) = none) :
    (book_appointment db pid doc d t r today).isOk = true ↔
      ∃ w ∈ db.doctor_availability, coversSlot doc d t w = true := by
  rw [← List.find?_isSome]
  unfold book_appointment
  rw [if_neg hpast, hf]
  dsimp only
  cases hw : db.doctor_availability.find? (coversSlot doc d t) with
  | none => simp [Except.isOk, Except.toBool]
  | some w => simp [Except.isOk, Except.toBool]

theorem book_ok_inv {db db1 : DB} {pid doc d t : Nat} {r : String} {today : Nat}
    (h : book_appointment db pid doc d t r today = Except.ok db1) :
    ¬ d < today ∧ db.appointments.find? (blocksSlot doc d t) = none ∧
      (db.doctor_availability.find? (coversSlot doc d t)).isSome = true ∧
      db1 = insertAppointment db pid doc d t r := by
  unfold book_appointment at h
  by_cases hd : d < today
  · rw [if_pos hd] at h
    exact absurd h (by simp)
  · rw [if_neg hd] at h
    cases hf : db.appointments.find? (blocksSlot doc d t) with
    | some a =>
      rw [hf] at h
      exact absurd h (by simp)
    | none =>
      rw [hf] at h
      dsimp only at h
      cases hw : db.doctor_availability.find? (coversSlot doc d t) with
      | none =>
        rw [hw] at h
        exact absurd h (by simp)
      | some w =>
        rw [hw] at h
        dsimp only at h
        injection h with h
        exact ⟨hd, rfl, rfl, h.symm⟩

theorem find?_append_left_none {α : Type} {p : α → Bool} {l1 l2 : List α}
    (h : l1.find? p = none) : (l1 ++ l2).find? p = l2.find? p := by
  rw [List.find?_append, h, Option.none_or]

/-- C4: a booking whose date is strictly before the current date fails with
the past-date error, regardless of availability or slot occupancy, and the
stored state is unchanged. -/
theorem C4_past_date_rejected (db : DB) (pid doc d t : Nat) (r : String)
    (today : Nat) (h : d < today) :
    book_appointment db pid doc d t r today = Except.error BookError.pastDate ∧
      applyOp db (Op.book pid doc d t r today) = db := by
  refine ⟨?_, ?_⟩
  · unfold book_appointment
    rw [if_pos h]
  · simp only [applyOp]
    unfold book_appointment
    rw [if_pos h]

/-- C4 witness at a concrete past date. -/
theorem C4_witness :
    (20241231 : Nat) < 20250101 ∧
      book_appointment db0 1 1 20241231 930 "" 20250101 =
        Except.error BookError.pastDate ∧
      applyOp db0 (Op.book 1 1 20241231 930 "" 20250101) = db0 :=
  ⟨by decide, C4_past_date_rejected db0 1 1 20241231 930 "" 20250101 (by decide)⟩


/-- C2: with the past-date check passed, a booking is rejected with the slot
conflict exactly when some existing appointment at the same (doctor, date,
time) triple has status `Booked` or `Completed` (equivalently, status not in
{Cancelled, Rescheduled}); and after a successful booking is cancelled, a
subsequent booking of the same triple succeeds. -/
theorem C2_conflict_iff_and_cancel_frees (db : DB) (pid doc d t : Nat)
    (r : String) (today : Nat) (hpast : ¬ d < today) :
    (book_appointment db pid doc d t r today = Except.error BookError.slotTaken ↔
      ∃ a ∈ db.appointments, a.doctor_id = doc ∧ a.appointment_date = d ∧
        a.appointment_time = t ∧
        (a.status = Status.Booked ∨ a.status = Status.Completed)) ∧
    (∀ db1, (∀ a ∈ db.appointments, a.appointment_id < db.next_appointment_id) →
      book_appointment db pid doc d t r today = Except.ok db1 →
      ∃ db2, cancel_appointment db1 pid db.next_appointment_id today =
          Except.ok db2 ∧
        ∀ pid2 r2, (book_appointment db2 pid2 doc d t r2 today).isOk = true) := by
  constructor
  · rw [book_eq_slotTaken_iff db pid doc d t r today hpast]
    refine exists_congr fun a => and_congr_right fun _ => ?_
    rw [blocksSlot_iff, nonTerminal_iff]
  · intro db1 hfresh hok
    obtain ⟨hd, hf, hw, hdb1⟩ := book_ok_inv hok
    subst hdb1
    have hfindnew :
        (insertAppointment db pid doc d t r).appointments.find?
          (fun a => a.appointment_id == db.next_appointment_id &&
            a.patient_id == pid) =
          some { appointment_id := db.next_appointment_id, patient_id := pid,
                 doctor_id := doc, appointment_date := d,
                 appointment_time := t, status := Status.Booked,
                 reason := r } := by
      unfold insertAppointment
      rw [find?_append_left_none]
      · simp
      · rw [List.find?_eq_none]
        intro a ha
        simp [Nat.ne_of_lt (hfresh a ha)]
    refine ⟨setStatus (insertAppointment db pid doc d t r)
      db.next_appointment_id Status.Cancelled, ?_, ?_⟩
    · unfold cancel_appointment
      rw [hfindnew]
      dsimp only
      rw [if_neg hd]
    · intro pid2 r2
      have hf2 : (setStatus (insertAppointment db pid doc d t r)
          db.next_appointment_id Status.Cancelled).appointments.find?
            (blocksSlot doc d t) = none := by
        rw [List.find?_eq_none]
        intro x hx
        unfold setStatus insertAppointment at hx
        simp only [List.map_append, List.mem_append] at hx
        rcases hx with hx | hx
        · rw [List.mem_map] at hx
          obtain ⟨a, ha, hax⟩ := hx
          have hne : (a.appointment_id == db.next_appointment_id) = false := by
            simp [Nat.ne_of_lt (hfresh a ha)]
          rw [hne] at hax
          simp only [Bool.false_eq_true, if_neg] at hax
          rw [← hax]
          have := List.find?_eq_none.mp hf a ha
          simpa using this
        · simp only [List.map_cons, List.map_nil, List.mem_singleton] at hx
          subst hx
          simp [blocksSlot]
      rw [book_isOk_iff _ pid2 doc d t r2 today hd hf2]
      rw [← List.find?_isSome]
      exact hw

/-- C2 witness: the conflict equivalence and the cancel-rebook scenario on
the seeded state at (doctor 1, 2025-01-01, 09:30). -/
theorem C2_witness :
    ¬ (20250101 : Nat) < 20250101 ∧
      ((book_appointment db0 1 1 20250101 930 "" 20250101 =
          Except.error BookError.slotTaken ↔
        ∃ a ∈ db0.appointments, a.doctor_id = 1 ∧ a.appointment_date = 20250101 ∧
          a.appointment_time = 930 ∧
          (a.status = Status.Booked ∨ a.status = Status.Completed)) ∧
      (∀ db1, (∀ a ∈ db0.appointments, a.appointment_id < db0.next_appointment_id) →
        book_appointment db0 1 1 20250101 930 "" 20250101 = Except.ok db1 →
        ∃ db2, cancel_appointment db1 1 db0.next_appointment_id 20250101 =
            Except.ok db2 ∧
          ∀ pid2 r2, (book_appointment db2 pid2 1 20250101 930 r2 20250101).isOk =
            true)) :=
  ⟨by decide, C2_conflict_iff_and_cancel_frees db0 1 1 20250101 930 "" 20250101
    (by decide)⟩


/-- C3: once the past-date and conflict checks pass, the availability test
succeeds exactly when some window for that doctor and date is open and
satisfies `start ≤ time ≤ end` with inclusive boundaries; in particular a
booking exactly at an open window's end time is accepted, and a booking at a
time after the end of every open window is rejected as unavailable. -/
theorem C3_availability_inclusive (db : DB) (pid doc d : Nat) (r : String)
    (today : Nat) (hpast : ¬ d < today) :
    (∀ t, db.appointments.find? (blocksSlot doc d t) = none →
      ((book_appointment db pid doc d t r today).isOk = true ↔
        ∃ w ∈ db.doctor_availability, w.doctor_id = doc ∧ w.date = d ∧
          w.is_available = true ∧ w.start_time ≤ t ∧ t ≤ w.end_time)) ∧
    (∀ w ∈ db.doctor_availability, w.doctor_id = doc → w.date = d →
      w.is_available = true → w.start_time ≤ w.end_time →
      db.appointments.find? (blocksSlot doc d w.end_time) = none →
      (book_appointment db pid doc d w.end_time r today).isOk = true) ∧
    (∀ t, (∀ w ∈ db.doctor_availability, w.doctor_id = doc → w.date = d →
        w.is_available = true → w.end_time < t) →
      db.appointments.find? (blocksSlot doc d t) = none →
      book_appointment db pid doc d t r today =
        Except.error BookError.unavailable) := by
  have hiff : ∀ t, db.appointments.find? (blocksSlot doc d t) = none →
      ((book_appointment db pid doc d t r today).isOk = true ↔
        ∃ w ∈ db.doctor_availability, w.doctor_id = doc ∧ w.date = d ∧
          w.is_available = true ∧ w.start_time ≤ t ∧ t ≤ w.end_time) := by
    intro t hf
    rw [book_isOk_iff db pid doc d t r today hpast hf]
    exact exists_congr fun w => and_congr_right fun _ => coversSlot_iff doc d t w
  refine ⟨hiff, ?_, ?_⟩
  · intro w hw hdoc hdate hav hse hf
    exact (hiff w.end_time hf).mpr ⟨w, hw, hdoc, hdate, hav, hse, Nat.le_refl _⟩
  · intro t hall hf
    have hnone : db.doctor_availability.find? (coversSlot doc d t) = none := by
      rw [List.find?_eq_none]
      intro w hw hcov
      rw [coversSlot_iff] at hcov
      obtain ⟨h1, h2, h3, _, h5⟩ := hcov
      exact absurd h5 (Nat.not_le_of_lt (hall w hw h1 h2 h3))
    unfold book_appointment
    rw [if_neg hpast, hf]
    dsimp only
    rw [hnone]

/-- C3 witness: on the seeded state the window (09:00–12:00, open) accepts a
booking exactly at 12:00 and rejects one at 12:01. -/
theorem C3_witness :
    ¬ (20250101 : Nat) < 20250101 ∧
      ((book_appointment db0 1 1 20250101 1200 "" 20250101).isOk = true ↔
        ∃ w ∈ db0.doctor_availability, w.doctor_id = 1 ∧ w.date = 20250101 ∧
          w.is_available = true ∧ w.start_time ≤ 1200 ∧ 1200 ≤ w.end_time) ∧
      book_appointment db0 1 1 20250101 1201 "" 20250101 =
        Except.error BookError.unavailable := by
  have h := C3_availability_inclusive db0 1 1 20250101 "" 20250101 (by decide)
  exact ⟨by decide, h.1 1200 (by decide),
    h.2.2 1201 (by decide) (by decide)⟩


/-- A seeded state whose only doctor and only patient are both blacklisted;
the doctor still has an open window on 2025-01-01. -/
def db5 : DB :=
  { doctors := [{ doctor_id := 1, user_id := 2, status := PartyStatus.blacklisted }],
    patients := [{ patient_id := 1, user_id := 3, status := PartyStatus.blacklisted }],
    doctor_availability :=
      [{ availability_id := 1, doctor_id := 1, date := 20250101,
         start_time := 900, end_time := 1200, is_available := true }],
    appointments := [], treatments := [],
    next_appointment_id := 1, next_availability_id := 2, next_treatment_id := 1 }

/-- C5 fails as stated: booking with a blacklisted doctor and a blacklisted
patient is not rejected — the booking route never reads either party's
status, so the appointment is created. -/
theorem C5_counterexample :
    (∃ dr ∈ db5.doctors, dr.doctor_id = 1 ∧ dr.status = PartyStatus.blacklisted) ∧
      (∃ p ∈ db5.patients, p.patient_id = 1 ∧ p.status = PartyStatus.blacklisted) ∧
      (book_appointment db5 1 1 20250101 930 "" 20250101).isOk = true ∧
      ∃ a ∈ (applyOp db5 (Op.book 1 1 20250101 930 "" 20250101)).appointments,
        a.patient_id = 1 ∧ a.doctor_id = 1 ∧ a.status = Status.Booked := by
  decide

/-- C5 amended: the booking route performs no blacklist check — whenever the
past-date, conflict and availability checks pass, the booking succeeds and
the appointment is created regardless of the doctor's or patient's status
(in particular for blacklisted parties, which merely stop appearing in the
patient-facing doctor listings filtered on `status = 'active'`); historical
appointments are untouched. -/
theorem C5_amended (db : DB) (pid doc d t : Nat) (r : String) (today : Nat)
    (hpast : ¬ d < today)
    (hf : db.appointments.find? (blocksSlot doc d t) = none)
    (hw : (db.doctor_availability.find? (coversSlot doc d t)).isSome = true) :
    (book_appointment db pid doc d t r today).isOk = true ∧
      ∀ db1, book_appointment db pid doc d t r today = Except.ok db1 →
        db1.appointments = db.appointments ++
          [{ appointment_id := db.next_appointment_id, patient_id := pid,
             doctor_id := doc, appointment_date := d, appointment_time := t,
             status := Status.Booked, reason := r }] := by
  constructor
  · rw [book_isOk_iff db pid doc d t r today hpast hf, ← List.find?_isSome]
    exact hw
  · intro db1 hok
    obtain ⟨_, _, _, hdb1⟩ := book_ok_inv hok
    rw [hdb1]
    rfl

/-- C5 witness: the amended statement evaluated on the blacklisted state. -/
theorem C5_witness :
    ¬ (20250101 : Nat) < 20250101 ∧
      db5.appointments.find? (blocksSlot 1 20250101 930) = none ∧
      (db5.doctor_availability.find? (coversSlot 1 20250101 930)).isSome = true ∧
      ((book_appointment db5 1 1 20250101 930 "" 20250101).isOk = true ∧
        ∀ db1, book_appointment db5 1 1 20250101 930 "" 20250101 = Except.ok db1 →
          db1.appointments = db5.appointments ++
            [{ appointment_id := db5.next_appointment_id, patient_id := 1,
               doctor_id := 1, appointment_date := 20250101,
               appointment_time := 930, status := Status.Booked,
               reason := "" }]) :=
  ⟨by decide, by decide, by decide,
    C5_amended db5 1 1 20250101 930 "" 20250101 (by decide) (by decide) (by decide)⟩


/-! ### Treatment upsert lemmas -/

theorem upsertTreatment_count (db : DB) (aid : Nat) (di pr no fu : String)
    (h : db.treatments.countP (fun tr => tr.appointment_id == aid) ≤ 1) :
    (upsertTreatment db aid di pr no fu).treatments.countP
      (fun tr => tr.appointment_id == aid) = 1 := by
  unfold upsertTreatment
  cases hf : db.treatments.find? (fun tr => tr.appointment_id == aid) with
  | none =>
    dsimp only
    rw [List.countP_append]
    have h0 : db.treatments.countP (fun tr => tr.appointment_id == aid) = 0 := by
      rw [List.countP_eq_zero]
      intro a ha
      exact List.find?_eq_none.mp hf a ha
    rw [h0]
    simp
  | some tr0 =>
    dsimp only
    rw [List.countP_map]
    have heq : db.treatments.countP
        ((fun tr => tr.appointment_id == aid) ∘ fun tr =>
          if tr.appointment_id == aid then
            { tr with diagnosis := di, prescription := pr, notes := no,
                      follow_up_date := fu }
          else tr) =
        db.treatments.countP (fun tr => tr.appointment_id == aid) := by
      apply List.countP_congr
      intro x _
      by_cases hx : (x.appointment_id == aid) = true
      · simp only [Function.comp_apply, if_pos hx]
      · simp only [Function.comp_apply, if_neg hx]
    rw [heq]
    have hpos : 0 < db.treatments.countP (fun tr => tr.appointment_id == aid) := by
      rw [List.countP_pos_iff]
      have h3 := @List.find?_some _ (fun tr => tr.appointment_id == aid) tr0
        db.treatments hf
      exact ⟨tr0, List.mem_of_find?_eq_some hf, h3⟩
    omega

theorem upsertTreatment_latest (db : DB) (aid : Nat) (di pr no fu : String) :
    ∀ tr ∈ (upsertTreatment db aid di pr no fu).treatments,
      tr.appointment_id = aid →
        tr.diagnosis = di ∧ tr.prescription = pr ∧ tr.notes = no ∧
          tr.follow_up_date = fu := by
  unfold upsertTreatment
  cases hf : db.treatments.find? (fun tr => tr.appointment_id == aid) with
  | none =>
    dsimp only
    intro tr htr haid
    rw [List.mem_append] at htr
    rcases htr with htr | htr
    · have := List.find?_eq_none.mp hf tr htr
      simp [haid] at this
    · simp only [List.mem_singleton] at htr
      subst htr
      exact ⟨rfl, rfl, rfl, rfl⟩
  | some tr0 =>
    dsimp only
    intro tr htr haid
    rw [List.mem_map] at htr
    obtain ⟨a, ha, hax⟩ := htr
    by_cases hid : (a.appointment_id == aid) = true
    · rw [if_pos hid] at hax
      rw [← hax]
      exact ⟨rfl, rfl, rfl, rfl⟩
    · rw [if_neg hid] at hax
      subst hax
      simp [haid] at hid

theorem doctor_update_core_treatments (db : DB) (aid : Nat) (st : Status)
    (di pr no fu : String) :
    (doctor_update_core db aid st di pr no fu).treatments =
      (upsertTreatment db aid di pr no fu).treatments := by
  unfold doctor_update_core upsertTreatment
  rw [setStatus_treatments]
  cases hff : db.treatments.find? (fun tr => tr.appointment_id == aid) <;> rfl

/-- C7: applying the doctor's status-update-with-treatment operation twice
with different clinical values leaves exactly one treatment record for the
appointment, holding the values of the latest call. -/
theorem C7_upsert_latest_wins (db : DB) (aid : Nat) (st1 st2 : Status)
    (di1 pr1 no1 fu1 di2 pr2 no2 fu2 : String)
    (h : db.treatments.countP (fun tr => tr.appointment_id == aid) ≤ 1) :
    ((doctor_update_core (doctor_update_core db aid st1 di1 pr1 no1 fu1)
        aid st2 di2 pr2 no2 fu2).treatments.countP
      (fun tr => tr.appointment_id == aid) = 1) ∧
    ∀ tr ∈ (doctor_update_core (doctor_update_core db aid st1 di1 pr1 no1 fu1)
        aid st2 di2 pr2 no2 fu2).treatments,
      tr.appointment_id = aid →
        tr.diagnosis = di2 ∧ tr.prescription = pr2 ∧ tr.notes = no2 ∧
          tr.follow_up_date = fu2 := by
  set db1 := doctor_update_core db aid st1 di1 pr1 no1 fu1 with hdb1
  have h1 : db1.treatments.countP (fun tr => tr.appointment_id == aid) = 1 := by
    rw [hdb1, doctor_update_core_treatments]
    exact upsertTreatment_count _ _ _ _ _ _ (by simpa using h)
  constructor
  · rw [doctor_update_core_treatments]
    exact upsertTreatment_count _ _ _ _ _ _ (by omega)
  · rw [doctor_update_core_treatments]
    exact upsertTreatment_latest _ _ _ _ _ _


/-- A state with one Completed appointment (id 1, patient 1, doctor 1) and
no treatment yet. -/
def db9 : DB :=
  { doctors := [{ doctor_id := 1, user_id := 2, status := PartyStatus.active }],
    patients := [{ patient_id := 1, user_id := 3, status := PartyStatus.active }],
    doctor_availability :=
      [{ availability_id := 1, doctor_id := 1, date := 20250101,
         start_time := 900, end_time := 1200, is_available := true }],
    appointments :=
      [{ appointment_id := 1, patient_id := 1, doctor_id := 1,
         appointment_date := 20250101, appointment_time := 930,
         status := Status.Completed, reason := "" }],
    treatments := [],
    next_appointment_id := 2, next_availability_id := 2, next_treatment_id := 1 }

/-- An idle connection over `db9`. -/
def conn9 : Conn := { committed := db9, pending := db9 }

/-- C7 witness: two updates with different clinical values on the concrete
state `db9`. -/
theorem C7_witness :
    db9.treatments.countP (fun tr => tr.appointment_id == 1) ≤ 1 ∧
      (((doctor_update_core (doctor_update_core db9 1 Status.Completed
            "flu" "rest" "n1" "2025-01-08") 1 Status.Completed
          "cold" "tea" "n2" "2025-01-09").treatments.countP
        (fun tr => tr.appointment_id == 1) = 1) ∧
      ∀ tr ∈ (doctor_update_core (doctor_update_core db9 1 Status.Completed
            "flu" "rest" "n1" "2025-01-08") 1 Status.Completed
          "cold" "tea" "n2" "2025-01-09").treatments,
        tr.appointment_id = 1 →
          tr.diagnosis = "cold" ∧ tr.prescription = "tea" ∧ tr.notes = "n2" ∧
            tr.follow_up_date = "2025-01-09") :=
  ⟨by decide, C7_upsert_latest_wins db9 1 Status.Completed Status.Completed
    "flu" "rest" "n1" "2025-01-08" "cold" "tea" "n2" "2025-01-09" (by decide)⟩

/-- C6: the doctor status-update-with-treatment request is atomic — if the
transaction commits, the committed state carries both the status change and
the treatment upsert; if any statement raises, the rollback leaves the
committed state untouched and discards the pending writes. -/
theorem C6_transactional (caller : Nat) (c : Conn) (aid : Nat) (st : Status)
    (di pr no fu : String) (failAt : Option Nat)
    (hsync : c.pending = c.committed) :
    ((doctor_update_appointment caller c aid st di pr no fu failAt).2 = false →
      (doctor_update_appointment caller c aid st di pr no fu failAt).1.committed =
          c.committed ∧
        (doctor_update_appointment caller c aid st di pr no fu failAt).1.pending =
          c.committed) ∧
    ((doctor_update_appointment caller c aid st di pr no fu failAt).2 = true →
      (doctor_update_appointment caller c aid st di pr no fu failAt).1.committed =
        doctor_update_core c.committed aid st di pr no fu) := by
  unfold doctor_update_appointment
  by_cases h0 : failAt = some 0
  · rw [if_pos h0]
    simp [rollbackTx]
  · rw [if_neg h0]
    by_cases h1 : failAt = some 1
    · rw [if_pos h1]
      simp [rollbackTx, execStmt]
    · rw [if_neg h1]
      by_cases h2 : failAt = some 2
      · rw [if_pos h2]
        simp [rollbackTx, execStmt]
      · rw [if_neg h2]
        simp [commitTx, execStmt, doctor_update_core, hsync]

/-- C6 witness: a failure after the status UPDATE on a concrete connection
leaves the committed state untouched. -/
theorem C6_witness :
    conn9.pending = conn9.committed ∧
      (((doctor_update_appointment 1 conn9 1 Status.Completed "flu" "rest" ""
            "" (some 1)).2 = false →
        (doctor_update_appointment 1 conn9 1 Status.Completed "flu" "rest" ""
              "" (some 1)).1.committed = conn9.committed ∧
          (doctor_update_appointment 1 conn9 1 Status.Completed "flu" "rest" ""
              "" (some 1)).1.pending = conn9.committed) ∧
      ((doctor_update_appointment 1 conn9 1 Status.Completed "flu" "rest" ""
            "" (some 1)).2 = true →
        (doctor_update_appointment 1 conn9 1 Status.Completed "flu" "rest" ""
            "" (some 1)).1.committed =
          doctor_update_core conn9.committed 1 Status.Completed "flu" "rest" ""
            "")) :=
  ⟨rfl, C6_transactional 1 conn9 1 Status.Completed "flu" "rest" "" ""
    (some 1) rfl⟩

/-- C9: patient cancellation never inspects the appointment's current
status — for an appointment owned by the requesting patient and dated today
or later, the operation succeeds and sets status `Cancelled` whatever the
current status is (including `Completed`, `Cancelled` or `Rescheduled`). -/
theorem C9_cancel_ignores_status (db : DB) (pid aid today : Nat)
    (a : Appointment)
    (hfind : db.appointments.find?
        (fun x => x.appointment_id == aid && x.patient_id == pid) = some a)
    (hdate : ¬ a.appointment_date < today) :
    ∃ db', cancel_appointment db pid aid today = Except.ok db' ∧
      ∀ b ∈ db'.appointments, b.appointment_id = aid →
        b.status = Status.Cancelled := by
  refine ⟨setStatus db aid Status.Cancelled, ?_, ?_⟩
  · unfold cancel_appointment
    rw [hfind]
    dsimp only
    rw [if_neg hdate]
  · intro b hb hbid
    unfold setStatus at hb
    rw [List.mem_map] at hb
    obtain ⟨x, hx, hxb⟩ := hb
    by_cases hid : (x.appointment_id == aid) = true
    · rw [if_pos hid] at hxb
      rw [← hxb]
    · rw [if_neg hid] at hxb
      subst hxb
      simp [hbid] at hid

/-- C9 witness: cancelling the Completed appointment of `db9` moves it to
Cancelled. -/
theorem C9_witness :
    db9.appointments.find?
        (fun x => x.appointment_id == 1 && x.patient_id == 1) =
      some { appointment_id := 1, patient_id := 1, doctor_id := 1,
             appointment_date := 20250101, appointment_time := 930,
             status := Status.Completed, reason := "" } ∧
    ¬ (20250101 : Nat) < 20250101 ∧
    ∃ db', cancel_appointment db9 1 1 20250101 = Except.ok db' ∧
      ∀ b ∈ db'.appointments, b.appointment_id = 1 →
        b.status = Status.Cancelled :=
  ⟨by decide, by decide,
    C9_cancel_ignores_status db9 1 1 20250101
      { appointment_id := 1, patient_id := 1, doctor_id := 1,
        appointment_date := 20250101, appointment_time := 930,
        status := Status.Completed, reason := "" }
      (by decide) (by decide)⟩

theorem upsertTreatment_count_pos (db : DB) (aid : Nat) (di pr no fu : String) :
    0 < (upsertTreatment db aid di pr no fu).treatments.countP
      (fun tr => tr.appointment_id == aid) := by
  rw [List.countP_pos_iff]
  unfold upsertTreatment
  cases hf : db.treatments.find? (fun tr => tr.appointment_id == aid) with
  | none =>
    dsimp only
    refine ⟨{ treatment_id := db.next_treatment_id,
              appointment_id := aid,
              diagnosis := di, prescription := pr, notes := no,
              follow_up_date := fu }, ?_, ?_⟩
    · rw [List.mem_append]
      right
      simp
    · simp
  | some tr0 =>
    dsimp only
    by_cases hid : (tr0.appointment_id == aid) = true
    · refine ⟨{ tr0 with diagnosis := di, prescription := pr, notes := no, follow_up_date := fu }, ?_, ?_⟩
      · rw [List.mem_map]
        refine ⟨tr0, List.mem_of_find?_eq_some hf, ?_⟩
        rw [if_pos hid]
      · simpa using hid
    · have h3 := @List.find?_some _ (fun tr => tr.appointment_id == aid) tr0
        db.treatments hf
      exact absurd h3 hid

/-- C10: the doctor status-update route has no ownership check — its result
is the same for every authenticated caller, and an appointment belonging to
a different doctor than the caller still has its status overwritten and its
treatment upserted on commit. -/
theorem C10_no_ownership_check (caller other : Nat) (c : Conn) (aid : Nat)
    (st : Status) (di pr no fu : String) (failAt : Option Nat)
    (hsync : c.pending = c.committed) (a : Appointment)
    (ha : a ∈ c.committed.appointments) (haid : a.appointment_id = aid)
    (howner : a.doctor_id ≠ caller) :
    (doctor_update_appointment caller c aid st di pr no fu failAt =
      doctor_update_appointment other c aid st di pr no fu failAt) ∧
    ((doctor_update_appointment caller c aid st di pr no fu none).1.committed =
      doctor_update_core c.committed aid st di pr no fu) ∧
    (∀ b ∈ (doctor_update_appointment caller c aid st di pr no fu
        none).1.committed.appointments,
      b.appointment_id = aid → b.status = st) ∧
    ((doctor_update_appointment caller c aid st di pr no fu
        none).1.committed.treatments.countP
      (fun tr => tr.appointment_id == aid) ≥ 1) := by
  have hcommit :
      (doctor_update_appointment caller c aid st di pr no fu none).1.committed =
        doctor_update_core c.committed aid st di pr no fu := by
    unfold doctor_update_appointment
    simp [commitTx, execStmt, doctor_update_core, hsync]
  refine ⟨rfl, hcommit, ?_, ?_⟩
  · intro b hb hbid
    rw [hcommit] at hb
    unfold doctor_update_core at hb
    rw [upsertTreatment_appointments] at hb
    unfold setStatus at hb
    rw [List.mem_map] at hb
    obtain ⟨x, hx, hxb⟩ := hb
    by_cases hid : (x.appointment_id == aid) = true
    · rw [if_pos hid] at hxb
      rw [← hxb]
    · rw [if_neg hid] at hxb
      subst hxb
      simp [hbid] at hid
  · rw [hcommit, doctor_update_core_treatments]
    exact upsertTreatment_count_pos c.committed aid di pr no fu


/-- C10 witness: caller 99 is not the appointment's doctor (doctor 1), yet
the update applies. -/
theorem C10_witness :
    conn9.pending = conn9.committed ∧
      ({ appointment_id := 1, patient_id := 1, doctor_id := 1,
         appointment_date := 20250101, appointment_time := 930,
         status := Status.Completed, reason := "" } : Appointment) ∈
        conn9.committed.appointments ∧
      (1 : Nat) ≠ 99 ∧
      ((doctor_update_appointment 99 conn9 1 Status.Cancelled "flu" "rest" ""
          "" none =
        doctor_update_appointment 5 conn9 1 Status.Cancelled "flu" "rest" ""
          "" none) ∧
      ((doctor_update_appointment 99 conn9 1 Status.Cancelled "flu" "rest" ""
          "" none).1.committed =
        doctor_update_core conn9.committed 1 Status.Cancelled "flu" "rest" ""
          "") ∧
      (∀ b ∈ (doctor_update_appointment 99 conn9 1 Status.Cancelled "flu"
          "rest" "" "" none).1.committed.appointments,
        b.appointment_id = 1 → b.status = Status.Cancelled) ∧
      ((doctor_update_appointment 99 conn9 1 Status.Cancelled "flu" "rest" ""
          "" none).1.committed.treatments.countP
        (fun tr => tr.appointment_id == 1) ≥ 1)) :=
  ⟨rfl, by decide, by decide,
    C10_no_ownership_check 99 5 conn9 1 Status.Cancelled "flu" "rest" "" ""
      none rfl
      { appointment_id := 1, patient_id := 1, doctor_id := 1,
        appointment_date := 20250101, appointment_time := 930,
        status := Status.Completed, reason := "" }
      (by decide) (by decide) (by decide)⟩

/-! ### Availability window upsert (C8) -/

/-- Well-formedness of the `doctor_availability` table as guaranteed by the
schema: the UNIQUE(doctor_id, date, start_time) constraint, primary-key
uniqueness, and AUTOINCREMENT freshness of `next_availability_id`. -/
def AvailWF (db : DB) : Prop :=
  db.doctor_availability.Pairwise
      (fun w v => ¬ (w.doctor_id = v.doctor_id ∧ w.date = v.date ∧
        w.start_time = v.start_time)) ∧
    db.doctor_availability.Pairwise
      (fun w v => w.availability_id ≠ v.availability_id) ∧
    ∀ w ∈ db.doctor_availability, w.availability_id < db.next_availability_id

instance (db : DB) : Decidable (AvailWF db) := by
  unfold AvailWF
  infer_instance

theorem availWF_congr {db db' : DB}
    (h1 : db'.doctor_availability = db.doctor_availability)
    (h2 : db'.next_availability_id = db.next_availability_id) :
    AvailWF db → AvailWF db' := by
  unfold AvailWF
  rw [h1, h2]
  exact id

theorem availWF_declare {db : DB} (doc d s e : Nat) (av : Bool)
    (hwf : AvailWF db) : AvailWF (declare_window db doc d s e av) := by
  obtain ⟨hkey, hid, hfresh⟩ := hwf
  unfold declare_window
  cases hf : db.doctor_availability.find?
      (fun w => w.doctor_id == doc && w.date == d && w.start_time == s) with
  | some w0 =>
    dsimp only
    have hfields : ∀ v : Availability,
        (if v.availability_id == w0.availability_id then
          { v with end_time := e, is_available := av } else v).doctor_id =
            v.doctor_id ∧
        (if v.availability_id == w0.availability_id then
          { v with end_time := e, is_available := av } else v).date = v.date ∧
        (if v.availability_id == w0.availability_id then
          { v with end_time := e, is_available := av } else v).start_time =
            v.start_time ∧
        (if v.availability_id == w0.availability_id then
          { v with end_time := e, is_available := av } else v).availability_id =
            v.availability_id := by
      intro v
      by_cases hv : (v.availability_id == w0.availability_id) = true
      · rw [if_pos hv]
        exact ⟨rfl, rfl, rfl, rfl⟩
      · rw [if_neg hv]
        exact ⟨rfl, rfl, rfl, rfl⟩
    refine ⟨?_, ?_, ?_⟩
    · rw [List.pairwise_map]
      refine hkey.imp ?_
      intro a b hab hcon
      obtain ⟨f1a, f2a, f3a, _⟩ := hfields a
      obtain ⟨f1b, f2b, f3b, _⟩ := hfields b
      rw [f1a, f2a, f3a, f1b, f2b, f3b] at hcon
      exact hab hcon
    · rw [List.pairwise_map]
      refine hid.imp ?_
      intro a b hab hcon
      obtain ⟨_, _, _, f4a⟩ := hfields a
      obtain ⟨_, _, _, f4b⟩ := hfields b
      rw [f4a, f4b] at hcon
      exact hab hcon
    · intro w hw
      rw [List.mem_map] at hw
      obtain ⟨x, hx, hxw⟩ := hw
      obtain ⟨_, _, _, f4⟩ := hfields x
      rw [← hxw, f4]
      exact hfresh x hx
  | none =>
    dsimp only
    have hnotkey := List.find?_eq_none.mp hf
    refine ⟨?_, ?_, ?_⟩
    · rw [List.pairwise_append]
      refine ⟨hkey, by simp, ?_⟩
      intro a ha b hb
      simp only [List.mem_singleton] at hb
      subst hb
      intro hcon
      apply hnotkey a ha
      obtain ⟨h1, h2, h3⟩ := hcon
      simp [h1, h2, h3]
    · rw [List.pairwise_append]
      refine ⟨hid, by simp, ?_⟩
      intro a ha b hb
      simp only [List.mem_singleton] at hb
      subst hb
      exact Nat.ne_of_lt (hfresh a ha)
    · intro w hw
      rw [List.mem_append] at hw
      rcases hw with hw | hw
      · exact Nat.lt_succ_of_lt (hfresh w hw)
      · simp only [List.mem_singleton] at hw
        subst hw
        exact Nat.lt_succ_self _

theorem availWF_applyOp {db : DB} (op : Op) (hwf : AvailWF db) :
    AvailWF (applyOp db op) := by
  cases op with
  | book pid doc d t r today =>
    simp only [applyOp]
    cases hb : book_appointment db pid doc d t r today with
    | error e => exact hwf
    | ok db' =>
      obtain ⟨_, _, _, hdb1⟩ := book_ok_inv hb
      subst hdb1
      exact availWF_congr rfl rfl hwf
  | cancel pid aid today =>
    simp only [applyOp]
    cases hc : cancel_appointment db pid aid today with
    | error e => exact hwf
    | ok db' =>
      unfold cancel_appointment at hc
      cases hfx : db.appointments.find?
          (fun a => a.appointment_id == aid && a.patient_id == pid) with
      | none =>
        rw [hfx] at hc
        exact absurd hc (by simp)
      | some a =>
        rw [hfx] at hc
        dsimp only at hc
        by_cases hd : a.appointment_date < today
        · rw [if_pos hd] at hc
          exact absurd hc (by simp)
        · rw [if_neg hd] at hc
          injection hc with hc
          rw [← hc]
          exact availWF_congr rfl rfl hwf
  | doctorUpdate aid st di pr no fu =>
    simp only [applyOp, doctor_update_core]
    refine availWF_congr ?_ ?_ hwf
    · unfold upsertTreatment
      split <;> rfl
    · unfold upsertTreatment
      split <;> rfl
  | adminUpdate aid st =>
    simp only [applyOp, admin_update_appointment]
    exact availWF_congr rfl rfl hwf
  | declare doc d s e av =>
    simp only [applyOp]
    exact availWF_declare doc d s e av hwf

theorem availWF_applyOps {db : DB} (ops : List Op) (hwf : AvailWF db) :
    AvailWF (applyOps db ops) := by
  induction ops generalizing db with
  | nil => exact hwf
  | cons op rest ih =>
    simp only [applyOps, List.foldl_cons]
    exact ih (availWF_applyOp op hwf)


theorem declare_window_exists (db : DB) (doc d s e : Nat) (av : Bool) :
    ∃ w ∈ (declare_window db doc d s e av).doctor_availability,
      w.doctor_id = doc ∧ w.date = d ∧ w.start_time = s ∧
        w.end_time = e ∧ w.is_available = av := by
  unfold declare_window
  cases hf : db.doctor_availability.find?
      (fun w => w.doctor_id == doc && w.date == d && w.start_time == s) with
  | some w0 =>
    dsimp only
    have hp := @List.find?_some _
      (fun w => w.doctor_id == doc && w.date == d && w.start_time == s) w0
      db.doctor_availability hf
    simp only [Bool.and_eq_true, beq_iff_eq] at hp
    obtain ⟨⟨h1, h2⟩, h3⟩ := hp
    refine ⟨{ w0 with end_time := e, is_available := av }, ?_, h1, h2, h3, rfl, rfl⟩
    rw [List.mem_map]
    refine ⟨w0, List.mem_of_find?_eq_some hf, ?_⟩
    rw [if_pos (by simp)]
  | none =>
    dsimp only
    refine ⟨{ availability_id := db.next_availability_id, doctor_id := doc,
              date := d, start_time := s, end_time := e,
              is_available := av }, ?_, rfl, rfl, rfl, rfl, rfl⟩
    rw [List.mem_append]
    right
    simp

theorem declare_window_preserves_others {db : DB} {doc d s : Nat} (e : Nat)
    (av : Bool)
    (hid : db.doctor_availability.Pairwise
      (fun w v => w.availability_id ≠ v.availability_id))
    (v : Availability) (hv : v ∈ db.doctor_availability)
    (hnk : ¬ (v.doctor_id = doc ∧ v.date = d ∧ v.start_time = s)) :
    v ∈ (declare_window db doc d s e av).doctor_availability := by
  unfold declare_window
  cases hf : db.doctor_availability.find?
      (fun w => w.doctor_id == doc && w.date == d && w.start_time == s) with
  | some w0 =>
    dsimp only
    have hp := @List.find?_some _
      (fun w => w.doctor_id == doc && w.date == d && w.start_time == s) w0
      db.doctor_availability hf
    simp only [Bool.and_eq_true, beq_iff_eq] at hp
    obtain ⟨⟨h1, h2⟩, h3⟩ := hp
    have hvw : v ≠ w0 := by
      intro hvw
      exact hnk (by rw [hvw]; exact ⟨h1, h2, h3⟩)
    have hsym : Symmetric (fun w v : Availability =>
        w.availability_id ≠ v.availability_id) := by
      intro a b hab
      exact hab.symm
    have hne := hid.forall hsym hv (List.mem_of_find?_eq_some hf) hvw
    rw [List.mem_map]
    refine ⟨v, hv, ?_⟩
    rw [if_neg (by simpa using hne)]
  | none =>
    dsimp only
    rw [List.mem_append]
    exact Or.inl hv

theorem declare_window_key_values {db : DB} {doc d s : Nat} (e : Nat)
    (av : Bool)
    (hkey : db.doctor_availability.Pairwise
      (fun w v => ¬ (w.doctor_id = v.doctor_id ∧ w.date = v.date ∧
        w.start_time = v.start_time))) :
    ∀ w ∈ (declare_window db doc d s e av).doctor_availability,
      w.doctor_id = doc → w.date = d → w.start_time = s →
        w.end_time = e ∧ w.is_available = av := by
  unfold declare_window
  cases hf : db.doctor_availability.find?
      (fun w => w.doctor_id == doc && w.date == d && w.start_time == s) with
  | some w0 =>
    dsimp only
    have hp := @List.find?_some _
      (fun w => w.doctor_id == doc && w.date == d && w.start_time == s) w0
      db.doctor_availability hf
    simp only [Bool.and_eq_true, beq_iff_eq] at hp
    obtain ⟨⟨h1, h2⟩, h3⟩ := hp
    intro w hw hwdoc hwdate hwstart
    rw [List.mem_map] at hw
    obtain ⟨x, hx, hxw⟩ := hw
    by_cases hxid : (x.availability_id == w0.availability_id) = true
    · rw [if_pos hxid] at hxw
      rw [← hxw]
      exact ⟨rfl, rfl⟩
    · rw [if_neg hxid] at hxw
      have hxw0 : x ≠ w0 := by
        intro hh
        rw [hh] at hxid
        simp at hxid
      have hsym : Symmetric (fun a b : Availability =>
          ¬ (a.doctor_id = b.doctor_id ∧ a.date = b.date ∧
            a.start_time = b.start_time)) := by
        intro a b hab hcon
        exact hab ⟨hcon.1.symm, hcon.2.1.symm, hcon.2.2.symm⟩
      have hcon := hkey.forall hsym hx (List.mem_of_find?_eq_some hf) hxw0
      rw [← hxw] at hwdoc hwdate hwstart
      exact absurd ⟨hwdoc.trans h1.symm, hwdate.trans h2.symm,
        hwstart.trans h3.symm⟩ hcon
  | none =>
    dsimp only
    intro w hw hwdoc hwdate hwstart
    rw [List.mem_append] at hw
    rcases hw with hw | hw
    · have := List.find?_eq_none.mp hf w hw
      simp [hwdoc, hwdate, hwstart] at this
    · simp only [List.mem_singleton] at hw
      subst hw
      exact ⟨rfl, rfl⟩

theorem declare_window_update_length {db : DB} {doc d s : Nat} (e : Nat)
    (av : Bool)
    (hs : (db.doctor_availability.find?
      (fun w => w.doctor_id == doc && w.date == d && w.start_time == s)).isSome =
        true) :
    (declare_window db doc d s e av).doctor_availability.length =
      db.doctor_availability.length := by
  unfold declare_window
  cases hf : db.doctor_availability.find?
      (fun w => w.doctor_id == doc && w.date == d && w.start_time == s) with
  | some w0 =>
    dsimp only
    exact List.length_map _ _
  | none =>
    rw [hf] at hs
    simp at hs

theorem declare_window_insert_shape {db : DB} {doc d s : Nat} (e : Nat)
    (av : Bool)
    (hn : db.doctor_availability.find?
      (fun w => w.doctor_id == doc && w.date == d && w.start_time == s) = none) :
    (declare_window db doc d s e av).doctor_availability =
      db.doctor_availability ++
        [{ availability_id := db.next_availability_id, doctor_id := doc,
           date := d, start_time := s, end_time := e, is_available := av }] := by
  unfold declare_window
  rw [hn]

/-- C8: declaring an availability window upserts by the natural key
(doctor, date, start time): a window with the new end time and open flag
exists at the key afterwards; if a window with the key existed, no row is
added and only end time and open flag change (windows at other keys
survive untouched); otherwise exactly the new row is appended; and under
the schema's invariants at most one window per key exists in every state
reachable afterwards. -/
theorem C8_declare_window_upsert (db : DB) (doc d s e : Nat) (av : Bool)
    (hwf : AvailWF db) :
    AvailWF (declare_window db doc d s e av) ∧
      (∃ w ∈ (declare_window db doc d s e av).doctor_availability,
        w.doctor_id = doc ∧ w.date = d ∧ w.start_time = s ∧
          w.end_time = e ∧ w.is_available = av) ∧
      (∀ v ∈ db.doctor_availability,
        ¬ (v.doctor_id = doc ∧ v.date = d ∧ v.start_time = s) →
          v ∈ (declare_window db doc d s e av).doctor_availability) ∧
      (∀ w ∈ (declare_window db doc d s e av).doctor_availability,
        w.doctor_id = doc → w.date = d → w.start_time = s →
          w.end_time = e ∧ w.is_available = av) ∧
      ((db.doctor_availability.find?
          (fun w => w.doctor_id == doc && w.date == d &&
            w.start_time == s)).isSome = true →
        (declare_window db doc d s e av).doctor_availability.length =
          db.doctor_availability.length) ∧
      (db.doctor_availability.find?
          (fun w => w.doctor_id == doc && w.date == d &&
            w.start_time == s) = none →
        (declare_window db doc d s e av).doctor_availability =
          db.doctor_availability ++
            [{ availability_id := db.next_availability_id, doctor_id := doc,
               date := d, start_time := s, end_time := e,
               is_available := av }]) ∧
      ∀ ops : List Op, AvailWF (applyOps (declare_window db doc d s e av) ops) := by
  obtain ⟨hkey, hid, hfresh⟩ := hwf
  refine ⟨availWF_declare doc d s e av ⟨hkey, hid, hfresh⟩,
    declare_window_exists db doc d s e av,
    fun v hv hnk => declare_window_preserves_others e av hid v hv hnk,
    declare_window_key_values e av hkey,
    fun hs => declare_window_update_length e av hs,
    fun hn => declare_window_insert_shape e av hn,
    fun ops => availWF_applyOps ops
      (availWF_declare doc d s e av ⟨hkey, hid, hfresh⟩)⟩


/-- C8 witness: declaring a new afternoon window on the seeded state. -/
theorem C8_witness :
    AvailWF db0 ∧
      (AvailWF (declare_window db0 1 20250102 1400 1700 true) ∧
        (∃ w ∈ (declare_window db0 1 20250102 1400 1700 true).doctor_availability,
          w.doctor_id = 1 ∧ w.date = 20250102 ∧ w.start_time = 1400 ∧
            w.end_time = 1700 ∧ w.is_available = true) ∧
        (∀ v ∈ db0.doctor_availability,
          ¬ (v.doctor_id = 1 ∧ v.date = 20250102 ∧ v.start_time = 1400) →
            v ∈ (declare_window db0 1 20250102 1400 1700 true).doctor_availability) ∧
        (∀ w ∈ (declare_window db0 1 20250102 1400 1700 true).doctor_availability,
          w.doctor_id = 1 → w.date = 20250102 → w.start_time = 1400 →
            w.end_time = 1700 ∧ w.is_available = true) ∧
        ((db0.doctor_availability.find?
            (fun w => w.doctor_id == 1 && w.date == 20250102 &&
              w.start_time == 1400)).isSome = true →
          (declare_window db0 1 20250102 1400 1700 true).doctor_availability.length =
            db0.doctor_availability.length) ∧
        (db0.doctor_availability.find?
            (fun w => w.doctor_id == 1 && w.date == 20250102 &&
              w.start_time == 1400) = none →
          (declare_window db0 1 20250102 1400 1700 true).doctor_availability =
            db0.doctor_availability ++
              [{ availability_id := db0.next_availability_id, doctor_id := 1,
                 date := 20250102, start_time := 1400, end_time := 1700,
                 is_available := true }]) ∧
        ∀ ops : List Op,
          AvailWF (applyOps (declare_window db0 1 20250102 1400 1700 true) ops)) :=
  ⟨by decide, C8_declare_window_upsert db0 1 20250102 1400 1700 true (by decide)⟩

end HMS
